import Mathlib

/-!
Shallow embedding of the DSP core of the juce-tutorial repository:
the biquad filter (Source/AdvancedDSP/BiquadFilter.h), the multi-band
equalizer (Source/AdvancedDSP/MultiBandEQ.h) and the spectrum analyzer
(Source/Visualization/SpectrumAnalyzer.h), together with theorems that
settle the specification claims about them.

Machine floating-point arithmetic is idealized as exact arithmetic:
state/coefficient algebra is embedded parametrically over a linear
ordered field (instantiated at ℚ where executability matters, at ℝ
where the code calls trigonometric functions).  External library
routines (the JUCE FFT transform, the float dB conversion and the
float Hann-window table) are passed in as explicit function
parameters, since they are not code of this repository; no claim
depends on their values, only on sizes and data flow.
-/

/-! ### BiquadFilter (Source/AdvancedDSP/BiquadFilter.h) -/

/-- Filter type enumeration of `BiquadFilter::FilterType`. -/
inductive FilterType
  | LowPass
  | HighPass
  | BandPass
  | Notch
  | AllPass
  | LowShelf
  | HighShelf
  | Peak
deriving DecidableEq, Repr

/-- Normalized transfer-function coefficients, `BiquadFilter::Coefficients`
(defaults give the unity-gain filter). -/
structure Coefficients (α : Type) [LinearOrderedField α] where
  b0 : α := 1
  b1 : α := 0
  b2 : α := 0
  a1 : α := 0
  a2 : α := 0
deriving Repr

/-- Processing history, `BiquadFilter::State`. -/
structure State (α : Type) [LinearOrderedField α] where
  x1 : α := 0
  x2 : α := 0
  y1 : α := 0
  y2 : α := 0
deriving Repr

/-- The biquad filter object, `AdvancedDSP::BiquadFilter<SampleType>`. -/
structure BiquadFilter (α : Type) [LinearOrderedField α] where
  coeffs : Coefficients α := {}
  state : State α := {}
  currentSampleRate : α := 44100
  maxBufferSize : Int := 512
  currentQ : α := 707 / 1000
deriving Repr

variable {α : Type} [LinearOrderedField α]

/-- `BiquadFilter::setCoefficients`: direct coefficient override. -/
def BiquadFilter.setCoefficients (f : BiquadFilter α) (b0 b1 b2 a1 a2 : α) :
    BiquadFilter α :=
  { f with coeffs := { b0 := b0, b1 := b1, b2 := b2, a1 := a1, a2 := a2 } }

/-- `BiquadFilter::processSample`: one step of the difference equation,
returning the output sample and the filter with shifted history. -/
def BiquadFilter.processSample (f : BiquadFilter α) (input : α) :
    α × BiquadFilter α :=
  let output := f.coeffs.b0 * input + f.coeffs.b1 * f.state.x1 +
      f.coeffs.b2 * f.state.x2 - f.coeffs.a1 * f.state.y1 -
      f.coeffs.a2 * f.state.y2
  (output,
   { f with state :=
      { x1 := input, x2 := f.state.x1, y1 := output, y2 := f.state.y1 } })

/-- `BiquadFilter::process`: the in-place loop `samples[i] = processSample(samples[i])`
for `i = 0, 1, ...` in order, rendered as a list traversal returning the
overwritten buffer and the final filter. -/
def BiquadFilter.process (f : BiquadFilter α) : List α → List α × BiquadFilter α
  | [] => ([], f)
  | x :: xs =>
    let r := f.processSample x
    let rest := r.2.process xs
    (r.1 :: rest.1, rest.2)

/-- `BiquadFilter::reset`: zero the state, keep everything else. -/
def BiquadFilter.reset (f : BiquadFilter α) : BiquadFilter α :=
  { f with state := { x1 := 0, x2 := 0, y1 := 0, y2 := 0 } }

/-- `BiquadFilter::prepare`: store sample rate and block size, then reset. -/
def BiquadFilter.prepare (f : BiquadFilter α) (sampleRate : α)
    (maxBlockSize : Int) : BiquadFilter α :=
  BiquadFilter.reset { f with currentSampleRate := sampleRate,
                              maxBufferSize := maxBlockSize }

/-- `BiquadFilter::setLowPassCoefficients`. -/
noncomputable def BiquadFilter.setLowPassCoefficients (f : BiquadFilter ℝ)
    (cos_omega alpha : ℝ) : BiquadFilter ℝ :=
  let norm := 1 / (1 + alpha)
  { f with coeffs :=
    { b0 := (1 - cos_omega) * (1/2) * norm
      b1 := (1 - cos_omega) * norm
      b2 := (1 - cos_omega) * (1/2) * norm
      a1 := -2 * cos_omega * norm
      a2 := (1 - alpha) * norm } }

/-- `BiquadFilter::setHighPassCoefficients`. -/
noncomputable def BiquadFilter.setHighPassCoefficients (f : BiquadFilter ℝ)
    (cos_omega alpha : ℝ) : BiquadFilter ℝ :=
  let norm := 1 / (1 + alpha)
  { f with coeffs :=
    { b0 := (1 + cos_omega) * (1/2) * norm
      b1 := -(1 + cos_omega) * norm
      b2 := (1 + cos_omega) * (1/2) * norm
      a1 := -2 * cos_omega * norm
      a2 := (1 - alpha) * norm } }

/-- `BiquadFilter::setBandPassCoefficients`; note the `a1` formula goes
through `std::cos(std::asin(sin_omega))` exactly as in the source. -/
noncomputable def BiquadFilter.setBandPassCoefficients (f : BiquadFilter ℝ)
    (sin_omega alpha : ℝ) : BiquadFilter ℝ :=
  let norm := 1 / (1 + alpha)
  { f with coeffs :=
    { b0 := alpha * norm
      b1 := 0
      b2 := -alpha * norm
      a1 := -2 * Real.cos (Real.arcsin sin_omega) * norm
      a2 := (1 - alpha) * norm } }

/-- `BiquadFilter::setPeakCoefficients`. -/
noncomputable def BiquadFilter.setPeakCoefficients (f : BiquadFilter ℝ)
    (cos_omega alpha A : ℝ) : BiquadFilter ℝ :=
  let norm := 1 / (1 + alpha / A)
  { f with coeffs :=
    { b0 := (1 + alpha * A) * norm
      b1 := -2 * cos_omega * norm
      b2 := (1 - alpha * A) * norm
      a1 := -2 * cos_omega * norm
      a2 := (1 - alpha / A) * norm } }

/-- `BiquadFilter::setLowShelfCoefficients` (reads the stored `currentQ`). -/
noncomputable def BiquadFilter.setLowShelfCoefficients (f : BiquadFilter ℝ)
    (cos_omega alpha A : ℝ) : BiquadFilter ℝ :=
  let beta := Real.sqrt A / f.currentQ
  let norm := 1 / ((A + 1) + (A - 1) * cos_omega + beta)
  { f with coeffs :=
    { b0 := A * ((A + 1) - (A - 1) * cos_omega + beta) * norm
      b1 := 2 * A * ((A - 1) - (A + 1) * cos_omega) * norm
      b2 := A * ((A + 1) - (A - 1) * cos_omega - beta) * norm
      a1 := -2 * ((A - 1) + (A + 1) * cos_omega) * norm
      a2 := ((A + 1) + (A - 1) * cos_omega - beta) * norm } }

/-- `BiquadFilter::setHighShelfCoefficients` (reads the stored `currentQ`). -/
noncomputable def BiquadFilter.setHighShelfCoefficients (f : BiquadFilter ℝ)
    (cos_omega alpha A : ℝ) : BiquadFilter ℝ :=
  let beta := Real.sqrt A / f.currentQ
  let norm := 1 / ((A + 1) - (A - 1) * cos_omega + beta)
  { f with coeffs :=
    { b0 := A * ((A + 1) + (A - 1) * cos_omega + beta) * norm
      b1 := -2 * A * ((A - 1) + (A + 1) * cos_omega) * norm
      b2 := A * ((A + 1) + (A - 1) * cos_omega - beta) * norm
      a1 := 2 * ((A - 1) - (A + 1) * cos_omega) * norm
      a2 := ((A + 1) - (A - 1) * cos_omega - beta) * norm } }

/-- `BiquadFilter::setNotchCoefficients`. -/
noncomputable def BiquadFilter.setNotchCoefficients (f : BiquadFilter ℝ)
    (cos_omega alpha : ℝ) : BiquadFilter ℝ :=
  let norm := 1 / (1 + alpha)
  { f with coeffs :=
    { b0 := norm
      b1 := -2 * cos_omega * norm
      b2 := norm
      a1 := -2 * cos_omega * norm
      a2 := (1 - alpha) * norm } }

/-- `BiquadFilter::setAllPassCoefficients`. -/
noncomputable def BiquadFilter.setAllPassCoefficients (f : BiquadFilter ℝ)
    (cos_omega alpha : ℝ) : BiquadFilter ℝ :=
  let norm := 1 / (1 + alpha)
  { f with coeffs :=
    { b0 := (1 - alpha) * norm
      b1 := -2 * cos_omega * norm
      b2 := (1 + alpha) * norm
      a1 := -2 * cos_omega * norm
      a2 := (1 - alpha) * norm } }

/-- `BiquadFilter::setFilter`: store Q, derive `omega`, `sin`, `cos`,
`alpha`, `A`, and dispatch on the filter type. -/
noncomputable def BiquadFilter.setFilter (f : BiquadFilter ℝ)
    (type : FilterType) (frequency Q gain : ℝ) : BiquadFilter ℝ :=
  let f1 := { f with currentQ := Q }
  let omega := 2 * Real.pi * frequency / f.currentSampleRate
  let sin_omega := Real.sin omega
  let cos_omega := Real.cos omega
  let alpha := sin_omega / (2 * Q)
  let A := Real.sqrt gain
  match type with
  | .LowPass => f1.setLowPassCoefficients cos_omega alpha
  | .HighPass => f1.setHighPassCoefficients cos_omega alpha
  | .BandPass => f1.setBandPassCoefficients sin_omega alpha
  | .Peak => f1.setPeakCoefficients cos_omega alpha A
  | .LowShelf => f1.setLowShelfCoefficients cos_omega alpha A
  | .HighShelf => f1.setHighShelfCoefficients cos_omega alpha A
  | .Notch => f1.setNotchCoefficients cos_omega alpha
  | .AllPass => f1.setAllPassCoefficients cos_omega alpha

/-- `BiquadFilter::getFrequencyResponse`: evaluate the transfer function at
`z = e^{i omega}`. -/
noncomputable def BiquadFilter.getFrequencyResponse (f : BiquadFilter ℝ)
    (frequency : ℝ) : ℂ :=
  let omega := 2 * Real.pi * frequency / f.currentSampleRate
  let z : ℂ := ⟨Real.cos omega, Real.sin omega⟩
  let z2 := z * z
  ((f.coeffs.b0 : ℂ) + (f.coeffs.b1 : ℂ) * z + (f.coeffs.b2 : ℂ) * z2) /
    ((1 : ℂ) + (f.coeffs.a1 : ℂ) * z + (f.coeffs.a2 : ℂ) * z2)

/-! ### MultiBandEQ (Source/AdvancedDSP/MultiBandEQ.h) -/

/-- `juce::jlimit`: clamp a value to a closed range
(`v < lo` gives `lo`, else `hi < v` gives `hi`, else `v`). -/
def jlimit (lo hi v : α) : α :=
  if v < lo then lo else if hi < v then hi else v

/-- `juce::Decibels::decibelsToGain` with the default `-100 dB` floor:
`10 ^ (dB / 20)` above the floor, `0` at or below it. -/
noncomputable def decibelsToGain (dB : ℝ) : ℝ :=
  if -100 < dB then (10 : ℝ) ^ (dB / 20) else 0

/-- `MultiBandEQ::Band`: one band's user-facing configuration. -/
structure Band where
  frequency : ℝ := 1000
  gain : ℝ := 0
  Q : ℝ := 707 / 1000
  type : FilterType := .Peak
  enabled : Bool := true

/-- `MultiBandEQ::NumBands`. -/
abbrev NumBands : Nat := 5

/-- The multi-band equalizer object. -/
structure MultiBandEQ where
  bands : Fin NumBands → Band
  filters : Fin NumBands → BiquadFilter ℝ
  sampleRate : ℝ := 44100
  bypassed : Bool := false

/-- Band indices `0..4` in cascade order (the `for` loop over bands). -/
def bandIdx : List (Fin NumBands) := [0, 1, 2, 3, 4]

/-- The `MultiBandEQ` constructor: hard-coded default bands and five
fresh (unity) filters. -/
noncomputable def MultiBandEQ.construct : MultiBandEQ where
  bands := fun j =>
    [⟨80, 0, 707 / 1000, .HighPass, true⟩,
     ⟨250, 0, 1, .Peak, true⟩,
     ⟨1000, 0, 1, .Peak, true⟩,
     ⟨4000, 0, 1, .Peak, true⟩,
     ⟨12000, 0, 707 / 1000, .LowPass, true⟩].getD j.val {}
  filters := fun _ => {}

/-- `MultiBandEQ::updateBand`: push the stored band settings into the
band's filter (guarded by index range and a positive sample rate). -/
noncomputable def MultiBandEQ.updateBand (eq : MultiBandEQ) (bandIndex : Int) :
    MultiBandEQ :=
  if h : 0 ≤ bandIndex ∧ bandIndex < NumBands ∧ 0 < eq.sampleRate then
    let j : Fin NumBands := ⟨bandIndex.toNat, by omega⟩
    let band := eq.bands j
    { eq with
        filters := Function.update eq.filters j
          ((eq.filters j).setFilter band.type band.frequency band.Q
            (decibelsToGain band.gain)) }
  else eq

/-- `MultiBandEQ::setBandParameters`: clamp frequency, gain and Q, store
them, then call `updateBand`. -/
noncomputable def MultiBandEQ.setBandParameters (eq : MultiBandEQ)
    (bandIndex : Int) (frequency gain Q : ℝ) : MultiBandEQ :=
  if h : 0 ≤ bandIndex ∧ bandIndex < NumBands then
    let j : Fin NumBands := ⟨bandIndex.toNat, by omega⟩
    let eq1 := { eq with
        bands := Function.update eq.bands j
          { eq.bands j with
              frequency := jlimit 20 20000 frequency
              gain := jlimit (-24) 24 gain
              Q := jlimit (1/10) 10 Q } }
    eq1.updateBand bandIndex
  else eq

/-- `MultiBandEQ::setBandEnabled`. -/
noncomputable def MultiBandEQ.setBandEnabled (eq : MultiBandEQ) (bandIndex : Int)
    (enabled : Bool) : MultiBandEQ :=
  if h : 0 ≤ bandIndex ∧ bandIndex < NumBands then
    let j : Fin NumBands := ⟨bandIndex.toNat, by omega⟩
    { eq with
        bands := Function.update eq.bands j
          { eq.bands j with enabled := enabled } }
  else eq

/-- `MultiBandEQ::setBypass` (the processing methods never read this flag). -/
noncomputable def MultiBandEQ.setBypass (eq : MultiBandEQ) (shouldBypass : Bool) :
    MultiBandEQ :=
  { eq with bypassed := shouldBypass }

/-- `MultiBandEQ::isBypassed`. -/
noncomputable def MultiBandEQ.isBypassed (eq : MultiBandEQ) : Bool := eq.bypassed

/-- `MultiBandEQ::reset`: reset every band filter's state. -/
noncomputable def MultiBandEQ.resetAll (eq : MultiBandEQ) : MultiBandEQ :=
  { eq with filters := fun j => (eq.filters j).reset }

/-- The inner band loop of `MultiBandEQ::processBlock`: run one sample
through each enabled band's filter in index order, returning the
processed sample and the updated filter array. -/
noncomputable def MultiBandEQ.processSampleBands (eq : MultiBandEQ) (s : ℝ) :
    ℝ × (Fin NumBands → BiquadFilter ℝ) :=
  bandIdx.foldl
    (fun acc b =>
      if (eq.bands b).enabled then
        let r := (acc.2 b).processSample acc.1
        (r.1, Function.update acc.2 b r.2)
      else acc)
    (s, eq.filters)

/-- The sample loop of `MultiBandEQ::processBlock` over one channel. -/
noncomputable def MultiBandEQ.processChannel (eq : MultiBandEQ) :
    List ℝ → List ℝ × MultiBandEQ
  | [] => ([], eq)
  | x :: xs =>
    let r := eq.processSampleBands x
    let rest := MultiBandEQ.processChannel { eq with filters := r.2 } xs
    (r.1 :: rest.1, rest.2)

/-- `MultiBandEQ::processBlock`: for every channel in order, process every
sample in order through the enabled bands.  The `bypassed` flag is not
consulted anywhere in this method (faithful to the source). -/
noncomputable def MultiBandEQ.processBlock (eq : MultiBandEQ) :
    List (List ℝ) → List (List ℝ) × MultiBandEQ
  | [] => ([], eq)
  | ch :: chs =>
    let r := eq.processChannel ch
    let rest := r.2.processBlock chs
    (r.1 :: rest.1, rest.2)

/-- Per-frequency body of `MultiBandEQ::getFrequencyResponse`: the running
complex product over the enabled bands, starting from `1`. -/
noncomputable def MultiBandEQ.totalResponse (eq : MultiBandEQ) (freq : ℝ) : ℂ :=
  bandIdx.foldl
    (fun acc b =>
      if (eq.bands b).enabled then acc * (eq.filters b).getFrequencyResponse freq
      else acc)
    1

/-- `MultiBandEQ::getFrequencyResponse`: magnitude of the cascade response
at each query frequency. -/
noncomputable def MultiBandEQ.getFrequencyResponse (eq : MultiBandEQ)
    (frequencies : List ℝ) : List ℝ :=
  frequencies.map (fun fr => Complex.abs (eq.totalResponse fr))

/-! ### SpectrumAnalyzer (Source/Visualization/SpectrumAnalyzer.h)

The analyzer is embedded over ℚ so that every operation is executable.
Three float library routines are passed in as function parameters:
`hannF n i` stands for the float Hann-window table entry
`0.5f * (1 - cos(2 pi i / (n - 1)))`, `fftMag` for
`juce::dsp::FFT::performFrequencyOnlyForwardTransform`, and `toDb` for
`juce::Decibels::gainToDecibels`.  No claim depends on the values those
routines produce, only on buffer sizes and data flow. -/

/-- `std::vector<float>::resize`: keep the first `n` entries, pad new
entries with `0`. -/
def resizeTo (l : List ℚ) (n : Nat) : List ℚ :=
  l.take n ++ List.replicate (n - l.length) 0

/-- The spectrum analyzer object (GUI/timer members omitted: they do not
participate in any analysis computation). -/
structure SpectrumAnalyzer where
  fftSize : Nat
  fftBuffer : List ℚ
  frequencyBins : List ℚ
  smoothedBins : List ℚ
  peakHoldBins : List ℚ
  window : List ℚ
  binFrequencies : List ℚ
  inputBuffer : List ℚ
  inputBufferIndex : Nat
  samplesUntilNextFFT : Nat
  sampleRate : ℚ
  smoothing : ℚ
  peakHoldEnabled : Bool
  peaks : List (ℚ × ℚ)
  minFrequency : ℚ
  maxFrequency : ℚ
  minMagnitude : ℚ
  maxMagnitude : ℚ

/-- The `SpectrumAnalyzer` constructor: `fftSize = 1 <<< fftOrder`, zeroed
FFT buffers, a freshly built window, an empty `binFrequencies` and an
empty `peakHoldBins` (neither is initialized by the constructor). -/
def SpectrumAnalyzer.make (hannF : Nat → Nat → ℚ) (fftOrder : Nat) :
    SpectrumAnalyzer :=
  let n := 2 ^ fftOrder
  { fftSize := n
    fftBuffer := List.replicate (n * 2) 0
    frequencyBins := List.replicate (n / 2) 0
    smoothedBins := List.replicate (n / 2) 0
    peakHoldBins := []
    window := (List.range n).map (hannF n)
    binFrequencies := []
    inputBuffer := List.replicate n 0
    inputBufferIndex := 0
    samplesUntilNextFFT := 0
    sampleRate := 44100
    smoothing := 8 / 10
    peakHoldEnabled := true
    peaks := []
    minFrequency := 20
    maxFrequency := 20000
    minMagnitude := -80
    maxMagnitude := 0 }

/-- `SpectrumAnalyzer::reset`: fill `smoothedBins` with the magnitude
floor, zero `inputBuffer`, rebuild `peakHoldBins` at the floor, reset
the cursor and counter, clear `peaks`. -/
def SpectrumAnalyzer.resetState (a : SpectrumAnalyzer) : SpectrumAnalyzer :=
  { a with
      smoothedBins := List.replicate a.smoothedBins.length a.minMagnitude
      inputBuffer := List.replicate a.inputBuffer.length 0
      peakHoldBins := List.replicate (a.fftSize / 2) a.minMagnitude
      inputBufferIndex := 0
      samplesUntilNextFFT := 0
      peaks := [] }

/-- `SpectrumAnalyzer::prepare`: store the sample rate, rebuild
`binFrequencies[i] = i * sampleRate / fftSize` for `i < fftSize / 2`,
then reset. -/
def SpectrumAnalyzer.prepare (a : SpectrumAnalyzer) (sampleRate : ℚ) :
    SpectrumAnalyzer :=
  SpectrumAnalyzer.resetState
    { a with
        sampleRate := sampleRate
        binFrequencies := (List.range (a.fftSize / 2)).map
          (fun (i : Nat) => (i : ℚ) * sampleRate / (a.fftSize : ℚ)) }

/-- `SpectrumAnalyzer::setFFTSize`: install the new size, resize every
FFT-sized buffer, rebuild the window, then reset.  `binFrequencies` is
not touched (faithful to the source). -/
def SpectrumAnalyzer.setFFTSize (hannF : Nat → Nat → ℚ)
    (a : SpectrumAnalyzer) (newFFTOrder : Nat) : SpectrumAnalyzer :=
  let n := 2 ^ newFFTOrder
  SpectrumAnalyzer.resetState
    { a with
        fftSize := n
        fftBuffer := resizeTo a.fftBuffer (n * 2)
        frequencyBins := resizeTo a.frequencyBins (n / 2)
        smoothedBins := resizeTo a.smoothedBins (n / 2)
        inputBuffer := resizeTo a.inputBuffer n
        window := (List.range n).map (hannF n) }

/-- `SpectrumAnalyzer::setSmoothing`: clamp to `[0, 0.99]`. -/
def SpectrumAnalyzer.setSmoothing (a : SpectrumAnalyzer)
    (smoothingFactor : ℚ) : SpectrumAnalyzer :=
  { a with smoothing := jlimit 0 (99 / 100) smoothingFactor }

/-- `SpectrumAnalyzer::setPeakHold`: store the flag; disabling rebuilds
the peak-hold track at `-100`. -/
def SpectrumAnalyzer.setPeakHold (a : SpectrumAnalyzer) (enabled : Bool) :
    SpectrumAnalyzer :=
  if enabled then { a with peakHoldEnabled := enabled }
  else { a with
          peakHoldEnabled := enabled
          peakHoldBins := List.replicate (a.fftSize / 2) (-100) }

/-- The candidate test of `SpectrumAnalyzer::detectPeaks`: bin `i` strictly
exceeds its four nearest neighbours, exceeds `-40 dB`, and its bin
frequency lies within `[minFrequency, maxFrequency]`. -/
def SpectrumAnalyzer.peakCond (a : SpectrumAnalyzer) (i : Nat) : Prop :=
  a.smoothedBins.getD (i - 1) 0 < a.smoothedBins.getD i 0 ∧
  a.smoothedBins.getD (i + 1) 0 < a.smoothedBins.getD i 0 ∧
  a.smoothedBins.getD (i - 2) 0 < a.smoothedBins.getD i 0 ∧
  a.smoothedBins.getD (i + 2) 0 < a.smoothedBins.getD i 0 ∧
  (-40 : ℚ) < a.smoothedBins.getD i 0 ∧
  a.minFrequency ≤ a.binFrequencies.getD i 0 ∧
  a.binFrequencies.getD i 0 ≤ a.maxFrequency

instance (a : SpectrumAnalyzer) (i : Nat) : Decidable (a.peakCond i) := by
  unfold SpectrumAnalyzer.peakCond
  infer_instance

/-- The separation test of `SpectrumAnalyzer::detectPeaks`: some already
accepted peak lies within `100 Hz` of bin `i`. -/
def SpectrumAnalyzer.tooClose (a : SpectrumAnalyzer)
    (acc : List (ℚ × ℚ)) (i : Nat) : Prop :=
  ∃ p ∈ acc, |a.binFrequencies.getD i 0 - p.1| < 100

instance (a : SpectrumAnalyzer) (acc : List (ℚ × ℚ)) (i : Nat) :
    Decidable (a.tooClose acc i) := by
  unfold SpectrumAnalyzer.tooClose
  infer_instance

/-- One iteration of the candidate loop in `SpectrumAnalyzer::detectPeaks`:
append bin `i` if it passes both tests. -/
def SpectrumAnalyzer.peakStep (a : SpectrumAnalyzer)
    (acc : List (ℚ × ℚ)) (i : Nat) : List (ℚ × ℚ) :=
  if a.peakCond i ∧ ¬ a.tooClose acc i then
    acc ++ [(a.binFrequencies.getD i 0, a.smoothedBins.getD i 0)]
  else acc

/-- The full candidate loop of `SpectrumAnalyzer::detectPeaks`:
`for i = 2; i < smoothedBins.size() - 2; i = i + 1` accumulating accepted
peaks in scan order. -/
def SpectrumAnalyzer.peakCandidates (a : SpectrumAnalyzer) : List (ℚ × ℚ) :=
  (List.range' 2 (a.smoothedBins.length - 4)).foldl a.peakStep []

/-- The accepted-peak list just before the candidate loop reaches bin `i`. -/
def SpectrumAnalyzer.peakAccUpTo (a : SpectrumAnalyzer) (i : Nat) :
    List (ℚ × ℚ) :=
  (List.range' 2 (i - 2)).foldl a.peakStep []

/-- Descending-magnitude order used by the `std::sort` comparator
`a.second > b.second`. -/
def magDescOrd (p q : ℚ × ℚ) : Prop := q.2 ≤ p.2

instance : DecidableRel magDescOrd := fun p q => by
  unfold magDescOrd
  infer_instance

instance : IsTotal (ℚ × ℚ) magDescOrd := ⟨fun p q => le_total q.2 p.2⟩

instance : IsTrans (ℚ × ℚ) magDescOrd :=
  ⟨fun _ _ _ h1 h2 => le_trans h2 h1⟩

/-- `SpectrumAnalyzer::detectPeaks`: clear the old list, collect candidates,
sort them by descending magnitude, keep at most the top 10.
`std::sort` leaves the order of equal magnitudes unspecified; it is
modelled by a stable sort consistent with the comparator. -/
def SpectrumAnalyzer.detectPeaksRun (a : SpectrumAnalyzer) :
    SpectrumAnalyzer :=
  { a with peaks := (List.insertionSort magDescOrd a.peakCandidates).take 10 }

/-- Epsilon added before the dB conversion (`1e-10f`). -/
def epsQ : ℚ := 1 / 10000000000

/-- One iteration of the smoothing loop in `SpectrumAnalyzer::performFFT`:
`smoothedBins[i] = smoothedBins[i] * smoothing + magnitudeDb * (1 - smoothing)`. -/
def smoothStep (smoothing : ℚ) (db : Nat → ℚ) (l : List ℚ) (i : Nat) :
    List ℚ :=
  l.set i (l.getD i 0 * smoothing + db i * (1 - smoothing))

/-- One iteration of the peak-hold loop in `SpectrumAnalyzer::performFFT`:
grow the track to `i + 1` entries (filled with `-100`) if it is too
short, then `peakHoldBins[i] = max(peakHoldBins[i] * 0.999, magnitudeDb)`. -/
def peakHoldStep (db : Nat → ℚ) (l : List ℚ) (i : Nat) : List ℚ :=
  let l2 := if l.length ≤ i then
    l ++ List.replicate (i + 1 - l.length) (-100) else l
  l2.set i (max (l2.getD i 0 * (999 / 1000)) (db i))

/-- `SpectrumAnalyzer::performFFT`: window the most recent `fftSize`
samples reading circularly from `inputBufferIndex`, zero-pad the upper
half, run the (parametrized) magnitude FFT, convert each low bin to dB,
exponentially smooth it into `smoothedBins`, update the peak-hold track,
then detect peaks. -/
def SpectrumAnalyzer.performFFT (fftMag : List ℚ → List ℚ) (toDb : ℚ → ℚ)
    (a : SpectrumAnalyzer) : SpectrumAnalyzer :=
  let windowed := (List.range a.fftSize).map
    (fun i => a.inputBuffer.getD ((a.inputBufferIndex + i) % a.fftSize) 0 *
      a.window.getD i 0)
  let buf := fftMag (windowed ++ List.replicate a.fftSize 0)
  let db := fun i => toDb (buf.getD i 0 + epsQ)
  let sb := (List.range (a.fftSize / 2)).foldl (smoothStep a.smoothing db)
    a.smoothedBins
  let ph :=
    if a.peakHoldEnabled then
      (List.range (a.fftSize / 2)).foldl (peakHoldStep db) a.peakHoldBins
    else a.peakHoldBins
  SpectrumAnalyzer.detectPeaksRun
    { a with fftBuffer := buf, smoothedBins := sb, peakHoldBins := ph }

/-- One sample of `SpectrumAnalyzer::processAudioBlock`: write into the
circular buffer, advance the cursor modulo `fftSize`, bump the counter
and trigger an FFT pass after every `fftSize / 4` samples. -/
def SpectrumAnalyzer.processOneSample (fftMag : List ℚ → List ℚ)
    (toDb : ℚ → ℚ) (a : SpectrumAnalyzer) (x : ℚ) : SpectrumAnalyzer :=
  let a1 := { a with
      inputBuffer := a.inputBuffer.set a.inputBufferIndex x
      inputBufferIndex := (a.inputBufferIndex + 1) % a.fftSize }
  let c := a1.samplesUntilNextFFT + 1
  if a1.fftSize / 4 ≤ c then
    SpectrumAnalyzer.performFFT fftMag toDb { a1 with samplesUntilNextFFT := 0 }
  else { a1 with samplesUntilNextFFT := c }

/-- `SpectrumAnalyzer::processAudioBlock` on the mono (left) channel. -/
def SpectrumAnalyzer.processAudioBlock (fftMag : List ℚ → List ℚ)
    (toDb : ℚ → ℚ) (a : SpectrumAnalyzer) (samples : List ℚ) :
    SpectrumAnalyzer :=
  samples.foldl (SpectrumAnalyzer.processOneSample fftMag toDb) a

/-- Buffer-length invariant established by the constructor and by
`setFFTSize`: every FFT-sized working buffer matches `fftSize`. -/
def SpectrumAnalyzer.BuffersSized (a : SpectrumAnalyzer) : Prop :=
  a.smoothedBins.length = a.fftSize / 2 ∧
  a.inputBuffer.length = a.fftSize ∧
  a.window.length = a.fftSize ∧
  a.fftBuffer.length = 2 * a.fftSize ∧
  0 < a.fftSize

/-- Full in-bounds invariant established by `prepare`: sized buffers plus
a `binFrequencies` and `peakHoldBins` of length `fftSize / 2` and a
cursor inside the input buffer. -/
def SpectrumAnalyzer.Prepared (a : SpectrumAnalyzer) : Prop :=
  a.BuffersSized ∧
  a.binFrequencies.length = a.fftSize / 2 ∧
  a.peakHoldBins.length = a.fftSize / 2 ∧
  a.inputBufferIndex < a.fftSize

/-! ### Claim C1 -/

/-- C1: `processSample(input)` returns
`y = b0*input + b1*x1 + b2*x2 - a1*y1 - a2*y2` and afterwards the state is
`(x1' = input, x2' = old x1, y1' = y, y2' = old y1)` (coefficients
untouched); and `process` overwrites the buffer in index order with
successive `processSample` results: a singleton processes one sample, and
processing a concatenation processes the prefix first and feeds the
resulting filter state into the suffix. -/
theorem biquad_processSample_process_spec :
    (∀ (f : BiquadFilter ℚ) (input : ℚ),
      (f.processSample input).1 =
        f.coeffs.b0 * input + f.coeffs.b1 * f.state.x1 +
          f.coeffs.b2 * f.state.x2 - f.coeffs.a1 * f.state.y1 -
          f.coeffs.a2 * f.state.y2 ∧
      (f.processSample input).2.state =
        { x1 := input, x2 := f.state.x1, y1 := (f.processSample input).1,
          y2 := f.state.y1 } ∧
      (f.processSample input).2.coeffs = f.coeffs) ∧
    (∀ (f : BiquadFilter ℚ) (x : ℚ),
      f.process [x] = ([(f.processSample x).1], (f.processSample x).2)) ∧
    (∀ (f : BiquadFilter ℚ) (l1 l2 : List ℚ),
      f.process (l1 ++ l2) =
        ((f.process l1).1 ++ ((f.process l1).2.process l2).1,
         ((f.process l1).2.process l2).2)) ∧
    (∀ (f : BiquadFilter ℚ) (l : List ℚ), (f.process l).1.length = l.length) := by
  refine ⟨fun f input => ⟨rfl, rfl, rfl⟩, fun f x => rfl, ?_, ?_⟩
  · intro f l1 l2
    induction l1 generalizing f with
    | nil => simp [BiquadFilter.process]
    | cons x xs ih =>
      simp only [List.cons_append, BiquadFilter.process, List.append_eq, ih]
  · intro f l
    induction l generalizing f with
    | nil => rfl
    | cons x xs ih => simp [BiquadFilter.process, ih]

/-! ### Claim C10 -/

/-- C10: the default-constructed filter has coefficients
`b0 = 1, b1 = b2 = a1 = a2 = 0`, so (for any internal state, i.e. before
any `setFilter`/`setCoefficients` call) `processSample` returns its input
unchanged and `process` leaves every buffer unchanged. -/
theorem biquad_default_identity :
    (({} : BiquadFilter ℚ).coeffs.b0 = 1 ∧
     ({} : BiquadFilter ℚ).coeffs.b1 = 0 ∧
     ({} : BiquadFilter ℚ).coeffs.b2 = 0 ∧
     ({} : BiquadFilter ℚ).coeffs.a1 = 0 ∧
     ({} : BiquadFilter ℚ).coeffs.a2 = 0) ∧
    (∀ (st : State ℚ) (sr : ℚ) (mb : Int) (q : ℚ) (input : ℚ),
      (BiquadFilter.processSample ⟨{}, st, sr, mb, q⟩ input).1 = input) ∧
    (∀ (st : State ℚ) (sr : ℚ) (mb : Int) (q : ℚ) (l : List ℚ),
      (BiquadFilter.process ⟨{}, st, sr, mb, q⟩ l).1 = l) := by
  refine ⟨⟨rfl, rfl, rfl, rfl, rfl⟩, ?_, ?_⟩
  · intro st sr mb q input
    simp [BiquadFilter.processSample]
  · intro st sr mb q l
    induction l generalizing st with
    | nil => rfl
    | cons x xs ih =>
      simp [BiquadFilter.process, BiquadFilter.processSample, ih]

/-! ### Claim C8 -/

/-- C8: `reset` zeroes the state and leaves coefficients (and the rest of
the filter) unchanged; conversely `setCoefficients` and `setFilter`
modify only the coefficients (and, for `setFilter`, the stored Q) and
leave the state unchanged. -/
theorem biquad_reset_setters_frame :
    (∀ (f : BiquadFilter ℝ),
      f.reset.state = { x1 := 0, x2 := 0, y1 := 0, y2 := 0 } ∧
      f.reset.coeffs = f.coeffs ∧
      f.reset.currentQ = f.currentQ ∧
      f.reset.currentSampleRate = f.currentSampleRate) ∧
    (∀ (f : BiquadFilter ℝ) (b0 b1 b2 a1 a2 : ℝ),
      (f.setCoefficients b0 b1 b2 a1 a2).state = f.state ∧
      (f.setCoefficients b0 b1 b2 a1 a2).coeffs =
        { b0 := b0, b1 := b1, b2 := b2, a1 := a1, a2 := a2 } ∧
      (f.setCoefficients b0 b1 b2 a1 a2).currentQ = f.currentQ ∧
      (f.setCoefficients b0 b1 b2 a1 a2).currentSampleRate =
        f.currentSampleRate) ∧
    (∀ (f : BiquadFilter ℝ) (t : FilterType) (frequency Q gain : ℝ),
      (f.setFilter t frequency Q gain).state = f.state ∧
      (f.setFilter t frequency Q gain).currentQ = Q ∧
      (f.setFilter t frequency Q gain).currentSampleRate =
        f.currentSampleRate) := by
  refine ⟨fun f => ⟨rfl, rfl, rfl, rfl⟩,
          fun f b0 b1 b2 a1 a2 => ⟨rfl, rfl, rfl, rfl⟩, ?_⟩
  intro f t frequency Q gain
  cases t <;>
    simp [BiquadFilter.setFilter, BiquadFilter.setLowPassCoefficients,
      BiquadFilter.setHighPassCoefficients,
      BiquadFilter.setBandPassCoefficients, BiquadFilter.setPeakCoefficients,
      BiquadFilter.setLowShelfCoefficients,
      BiquadFilter.setHighShelfCoefficients, BiquadFilter.setNotchCoefficients,
      BiquadFilter.setAllPassCoefficients]

/-! ### Claim C7 -/

/-- C7: for every in-range band index, `setBandParameters` stores the
clamped frequency/gain/Q (leaving type and enabled flag alone) and then
pushes them into the band's filter via `updateBand` (which runs whenever
the sample rate is positive); clamping sends `(30000, 50, 20)` to
`(20000, 24, 10)`. -/
theorem eq_setBandParameters_clamps (eq : MultiBandEQ) (j : Fin NumBands)
    (frequency gain Q : ℝ) :
    ((eq.setBandParameters (j.val : Int) frequency gain Q).bands j).frequency =
        jlimit 20 20000 frequency ∧
    ((eq.setBandParameters (j.val : Int) frequency gain Q).bands j).gain =
        jlimit (-24) 24 gain ∧
    ((eq.setBandParameters (j.val : Int) frequency gain Q).bands j).Q =
        jlimit (1/10) 10 Q ∧
    ((eq.setBandParameters (j.val : Int) frequency gain Q).bands j).type =
        (eq.bands j).type ∧
    ((eq.setBandParameters (j.val : Int) frequency gain Q).bands j).enabled =
        (eq.bands j).enabled ∧
    (0 < eq.sampleRate →
      (eq.setBandParameters (j.val : Int) frequency gain Q).filters j =
        (eq.filters j).setFilter (eq.bands j).type (jlimit 20 20000 frequency)
          (jlimit (1/10) 10 Q) (decibelsToGain (jlimit (-24) 24 gain))) ∧
    jlimit (20:ℝ) 20000 30000 = 20000 ∧
    jlimit (-24:ℝ) 24 50 = 24 ∧
    jlimit ((1:ℝ)/10) 10 20 = 10 := by
  have hj : (0 : Int) ≤ (j.val : Int) ∧ ((j.val : Int) < NumBands) := by
    constructor
    · exact Int.natCast_nonneg _
    · exact_mod_cast j.isLt
  have hJ : (⟨((j.val : Int)).toNat, by omega⟩ : Fin NumBands) = j := by
    apply Fin.ext
    simp
  have hbands : (eq.setBandParameters (j.val : Int) frequency gain Q).bands j =
      { eq.bands j with
          frequency := jlimit 20 20000 frequency
          gain := jlimit (-24) 24 gain
          Q := jlimit (1/10) 10 Q } := by
    unfold MultiBandEQ.setBandParameters MultiBandEQ.updateBand
    rw [dif_pos hj]
    dsimp only
    split <;> simp [hJ, Function.update_same]
  have hfilters : 0 < eq.sampleRate →
      (eq.setBandParameters (j.val : Int) frequency gain Q).filters j =
        (eq.filters j).setFilter (eq.bands j).type (jlimit 20 20000 frequency)
          (jlimit (1/10) 10 Q) (decibelsToGain (jlimit (-24) 24 gain)) := by
    intro hsr
    unfold MultiBandEQ.setBandParameters MultiBandEQ.updateBand
    rw [dif_pos hj, dif_pos ⟨hj.1, hj.2, hsr⟩]
    simp [hJ, Function.update_same]
  refine ⟨?_, ?_, ?_, ?_, ?_, hfilters, by norm_num [jlimit],
    by norm_num [jlimit], by norm_num [jlimit]⟩ <;> rw [hbands]

/-- Witness for C7 at band 0 of the default equalizer with arguments
`(30000, 50, 20)`: the stored band is `(20000, 24, 10)`. -/
theorem eq_setBandParameters_clamps_witness :
    (0:ℝ) < MultiBandEQ.construct.sampleRate ∧
    ((MultiBandEQ.construct.setBandParameters 0 30000 50 20).bands 0).frequency
        = 20000 ∧
    ((MultiBandEQ.construct.setBandParameters 0 30000 50 20).bands 0).gain
        = 24 ∧
    ((MultiBandEQ.construct.setBandParameters 0 30000 50 20).bands 0).Q
        = 10 := by
  have h := eq_setBandParameters_clamps MultiBandEQ.construct 0 30000 50 20
  have h0 : ((0 : Fin NumBands).val : Int) = 0 := rfl
  rw [h0] at h
  refine ⟨by norm_num [MultiBandEQ.construct], ?_, ?_, ?_⟩
  · rw [h.1, h.2.2.2.2.2.2.1]
  · rw [h.2.1, h.2.2.2.2.2.2.2.1]
  · rw [h.2.2.1, h.2.2.2.2.2.2.2.2]

/-! ### Claim C2 -/

/-- `setBypass` does not change what the inner band loop computes. -/
lemma setBypass_processSampleBands (eq : MultiBandEQ) (b : Bool) (s : ℝ) :
    (eq.setBypass b).processSampleBands s = eq.processSampleBands s := rfl

/-- `setBypass` commutes with the per-channel sample loop. -/
lemma setBypass_processChannel (eq : MultiBandEQ) (b : Bool) (l : List ℝ) :
    (eq.setBypass b).processChannel l =
      ((eq.processChannel l).1, (eq.processChannel l).2.setBypass b) := by
  induction l generalizing eq with
  | nil => rfl
  | cons x xs ih =>
    simp only [MultiBandEQ.processChannel, setBypass_processSampleBands]
    rw [show ({ eq.setBypass b with
          filters := (eq.processSampleBands x).2 } : MultiBandEQ) =
        ({ eq with filters := (eq.processSampleBands x).2 } :
          MultiBandEQ).setBypass b from rfl]
    rw [ih]

/-- `setBypass` commutes with `processBlock`. -/
lemma setBypass_processBlock (eq : MultiBandEQ) (b : Bool)
    (buf : List (List ℝ)) :
    (eq.setBypass b).processBlock buf =
      ((eq.processBlock buf).1, (eq.processBlock buf).2.setBypass b) := by
  induction buf generalizing eq with
  | nil => rfl
  | cons ch chs ih =>
    simp only [MultiBandEQ.processBlock, setBypass_processChannel]
    rw [ih]

/-- C2 is a code bug: `processBlock` never consults the `bypassed` flag.
Setting the flag changes neither the produced samples nor the filter
updates, and on the concrete failing input (default equalizer,
`setBypass(true)`, one channel holding the single sample `1`) the call
still mutates band 0's filter state (`x1` goes from `0` to `1`), so it is
not a no-op as the claim requires. -/
theorem eq_processBlock_ignores_bypass :
    (∀ (eq : MultiBandEQ) (b : Bool) (buffer : List (List ℝ)),
      ((eq.setBypass b).processBlock buffer).1 = (eq.processBlock buffer).1 ∧
      ((eq.setBypass b).processBlock buffer).2.filters =
        (eq.processBlock buffer).2.filters) ∧
    (MultiBandEQ.construct.setBypass true).isBypassed = true ∧
    (((MultiBandEQ.construct.setBypass true).processBlock
        [[1]]).2.filters 0).state.x1 = 1 ∧
    ((MultiBandEQ.construct.setBypass true).filters 0).state.x1 = 0 ∧
    (1 : ℝ) ≠ 0 := by
  refine ⟨?_, rfl, ?_, rfl, one_ne_zero⟩
  · intro eq b buffer
    rw [setBypass_processBlock]
    exact ⟨rfl, rfl⟩
  · simp [MultiBandEQ.processBlock, MultiBandEQ.processChannel,
      MultiBandEQ.processSampleBands, bandIdx, MultiBandEQ.construct,
      MultiBandEQ.setBypass, BiquadFilter.processSample, Function.update,
      Fin.ext_iff, show ((0:Fin 5)).val = 0 from rfl,
      show ((1:Fin 5)).val = 1 from rfl, show ((2:Fin 5)).val = 2 from rfl,
      show ((3:Fin 5)).val = 3 from rfl, show ((4:Fin 5)).val = 4 from rfl]

/-! ### Claim C4 -/

/-- Counterexample to C4 as stated: at `frequency = sampleRate / 3`
(44100 / 3 = 14700 Hz, i.e. `omega = 2 pi / 3`, which lies in the claimed
range `(0, pi)`), the coded BandPass `a1 = -2 cos(asin(sin omega)) * norm`
does NOT equal `-2 cos(omega) * norm`: `cos(asin(x))` is never negative,
while `cos(omega) < 0` for `omega > pi / 2`, so the two differ in sign. -/
theorem bandpass_asin_roundtrip_cex :
    ¬ ((({} : BiquadFilter ℝ).setFilter .BandPass 14700 1 1).coeffs.a1 =
      -2 * Real.cos (2 * Real.pi * 14700 / 44100) *
        (1 / (1 + Real.sin (2 * Real.pi * 14700 / 44100) / (2 * 1)))) := by
  have hsr : ({} : BiquadFilter ℝ).currentSampleRate = 44100 := rfl
  have homega : 2 * Real.pi * 14700 / 44100 = Real.pi - Real.pi / 3 := by
    ring
  have hsin : Real.sin (2 * Real.pi * 14700 / 44100) = Real.sqrt 3 / 2 := by
    rw [homega, Real.sin_pi_sub, Real.sin_pi_div_three]
  have hcos : Real.cos (2 * Real.pi * 14700 / 44100) = -(1 / 2) := by
    rw [homega, Real.cos_pi_sub, Real.cos_pi_div_three]
  have harcsin :
      Real.cos (Real.arcsin (Real.sin (2 * Real.pi * 14700 / 44100))) =
        1 / 2 := by
    rw [homega, Real.sin_pi_sub,
      show Real.pi / 3 = Real.pi - Real.pi / 3 - Real.pi / 3 by ring]
    rw [show Real.pi - Real.pi / 3 - Real.pi / 3 = Real.pi / 3 by ring]
    rw [Real.arcsin_sin (by linarith [Real.pi_pos]) (by linarith [Real.pi_pos]),
      Real.cos_pi_div_three]
  intro h
  unfold BiquadFilter.setFilter BiquadFilter.setBandPassCoefficients at h
  simp only [hsr] at h
  rw [harcsin, hcos, hsin] at h
  have hpos : 0 < 1 + Real.sqrt 3 / 2 / (2 * 1) := by
    have := Real.sqrt_nonneg 3
    linarith
  have hn : 0 < 1 / (1 + Real.sqrt 3 / 2 / (2 * 1)) := by positivity
  nlinarith [hn, h]

/-- C4 amended: the `asin(sin omega)` round-trip is redundant with
`cos(omega)` exactly on the lower half of the admissible range,
`0 < frequency ≤ sampleRate / 4` (`omega` in `(0, pi/2]`), where
`arcsin (sin omega) = omega`; for `sampleRate/4 < frequency <
sampleRate/2` the code computes `+2 cos(omega) * norm` instead (see the
counterexample). -/
theorem bandpass_asin_roundtrip_lowfreq (f : BiquadFilter ℝ)
    (frequency Q gain : ℝ) (hsr : 0 < f.currentSampleRate)
    (h0 : 0 < frequency) (h4 : frequency ≤ f.currentSampleRate / 4) :
    (f.setFilter .BandPass frequency Q gain).coeffs.a1 =
      -2 * Real.cos (2 * Real.pi * frequency / f.currentSampleRate) *
        (1 / (1 + Real.sin (2 * Real.pi * frequency / f.currentSampleRate) /
          (2 * Q))) := by
  have hωpos : 0 < 2 * Real.pi * frequency / f.currentSampleRate :=
    div_pos (mul_pos (mul_pos two_pos Real.pi_pos) h0) hsr
  have hωle : 2 * Real.pi * frequency / f.currentSampleRate ≤ Real.pi / 2 := by
    have h1 : 2 * Real.pi * frequency ≤
        2 * Real.pi * (f.currentSampleRate / 4) := by
      have h2pi : (0:ℝ) ≤ 2 * Real.pi := by positivity
      exact mul_le_mul_of_nonneg_left h4 h2pi
    have h2 : 2 * Real.pi * frequency / f.currentSampleRate ≤
        2 * Real.pi * (f.currentSampleRate / 4) / f.currentSampleRate := by
      gcongr
    have h3 : 2 * Real.pi * (f.currentSampleRate / 4) / f.currentSampleRate =
        Real.pi / 2 := by
      field_simp
      ring
    linarith
  have harc :
      Real.arcsin (Real.sin (2 * Real.pi * frequency / f.currentSampleRate)) =
        2 * Real.pi * frequency / f.currentSampleRate :=
    Real.arcsin_sin (by linarith [Real.pi_pos]) hωle
  unfold BiquadFilter.setFilter BiquadFilter.setBandPassCoefficients
  dsimp only
  rw [harc]

/-- Witness for the amended C4 at `frequency = 11025 = 44100 / 4` on a
default-constructed filter. -/
theorem bandpass_asin_roundtrip_lowfreq_witness :
    (0:ℝ) < ({} : BiquadFilter ℝ).currentSampleRate ∧ ((0:ℝ) < 11025) ∧
    ((11025:ℝ) ≤ ({} : BiquadFilter ℝ).currentSampleRate / 4) ∧
    (({} : BiquadFilter ℝ).setFilter .BandPass 11025 1 1).coeffs.a1 =
      -2 * Real.cos (2 * Real.pi * 11025 /
          ({} : BiquadFilter ℝ).currentSampleRate) *
        (1 / (1 + Real.sin (2 * Real.pi * 11025 /
          ({} : BiquadFilter ℝ).currentSampleRate) / (2 * 1))) := by
  have hsr : ({} : BiquadFilter ℝ).currentSampleRate = 44100 := rfl
  refine ⟨by rw [hsr]; norm_num, by norm_num, by rw [hsr]; norm_num,
    bandpass_asin_roundtrip_lowfreq {} 11025 1 1 (by rw [hsr]; norm_num)
      (by norm_num) (by rw [hsr]; norm_num)⟩

/-! ### Claim C3 -/

/-- A conditional-multiply fold is the product over the filtered list. -/
lemma foldl_if_mul (L : List (Fin NumBands)) (p : Fin NumBands → Bool)
    (g : Fin NumBands → ℂ) (init : ℂ) :
    L.foldl (fun acc b => if p b then acc * g b else acc) init =
      init * ((L.filter p).map g).prod := by
  induction L generalizing init with
  | nil => simp
  | cons x xs ih =>
    simp only [List.foldl_cons, List.filter_cons]
    by_cases h : p x
    · simp only [h, if_true, ih, List.map_cons, List.prod_cons]
      ring
    · simp only [h, if_false, ih, Bool.false_eq_true]

/-- The complex absolute value distributes over list products. -/
lemma abs_list_prod (l : List ℂ) :
    Complex.abs l.prod = (l.map Complex.abs).prod := by
  induction l with
  | nil => simp
  | cons x xs ih => simp [ih]

/-- Removing one positively-tested element from a filtered product factors
out exactly its contribution (list version, needs the element to occur
exactly once). -/
lemma filter_map_prod_update (L : List (Fin NumBands))
    (p : Fin NumBands → Bool) (g : Fin NumBands → ℝ) (j : Fin NumBands)
    (hmem : j ∈ L) (hnd : L.Nodup) (hj : p j = true) :
    ((L.filter p).map g).prod =
      ((L.filter (fun b => if b = j then false else p b)).map g).prod * g j := by
  induction L with
  | nil => cases hmem
  | cons x xs ih =>
    rcases List.nodup_cons.mp hnd with ⟨hx, hnd2⟩
    by_cases hxj : x = j
    · subst hxj
      have hfix : xs.filter (fun b => if b = x then false else p b) =
          xs.filter p := by
        apply List.filter_congr
        intro b hb
        have hbx : b ≠ x := fun h => hx (h ▸ hb)
        simp [hbx]
      have h1 : (x :: xs).filter p = x :: xs.filter p := by
        simp [List.filter_cons, hj]
      have h2 : (x :: xs).filter (fun b => if b = x then false else p b) =
          xs.filter p := by
        rw [List.filter_cons, if_neg (by simp), hfix]
      rw [h1, h2, List.map_cons, List.prod_cons]
      ring
    · have hmem2 : j ∈ xs := by
        cases hmem with
        | head => exact absurd rfl hxj
        | tail _ h => exact h
      have hcond : (if x = j then false else p x) = p x := by simp [hxj]
      rcases Bool.eq_false_or_eq_true (p x) with hp | hp
      · have h1 : (x :: xs).filter p = x :: xs.filter p := by
          rw [List.filter_cons, if_pos (by simp [hp])]
        have h2 : (x :: xs).filter (fun b => if b = j then false else p b) =
            x :: xs.filter (fun b => if b = j then false else p b) := by
          rw [List.filter_cons, if_pos (by simp [hcond, hp, hxj])]
        rw [h1, h2, List.map_cons, List.prod_cons, List.map_cons,
          List.prod_cons, ih hmem2 hnd2]
        ring
      · have h1 : (x :: xs).filter p = xs.filter p := by
          rw [List.filter_cons, if_neg (by simp [hp])]
        have h2 : (x :: xs).filter (fun b => if b = j then false else p b) =
            xs.filter (fun b => if b = j then false else p b) := by
          rw [List.filter_cons, if_neg (by simp [hcond, hp, hxj])]
        rw [h1, h2, ih hmem2 hnd2]

/-- C3: `MultiBandEQ::getFrequencyResponse` maps each query frequency to
the magnitude of the complex product of exactly the enabled bands'
filter responses; that magnitude equals the product of the individual
magnitudes; with no band enabled it is `1`; and disabling one enabled
band removes exactly that band's multiplicative magnitude factor. -/
theorem eq_frequencyResponse_cascade (eq : MultiBandEQ) (freqs : List ℝ)
    (freq : ℝ) (j : Fin NumBands) :
    (eq.getFrequencyResponse freqs =
      freqs.map (fun fr => Complex.abs (eq.totalResponse fr))) ∧
    (eq.totalResponse freq =
      ((bandIdx.filter (fun b => (eq.bands b).enabled)).map
        (fun b => (eq.filters b).getFrequencyResponse freq)).prod) ∧
    (Complex.abs (eq.totalResponse freq) =
      ((bandIdx.filter (fun b => (eq.bands b).enabled)).map
        (fun b => Complex.abs ((eq.filters b).getFrequencyResponse freq))).prod) ∧
    ((∀ b, (eq.bands b).enabled = false) →
      Complex.abs (eq.totalResponse freq) = 1) ∧
    ((eq.bands j).enabled = true →
      Complex.abs (eq.totalResponse freq) =
        Complex.abs ((eq.setBandEnabled (j.val : Int) false).totalResponse freq)
          * Complex.abs ((eq.filters j).getFrequencyResponse freq)) := by
  have hprod : eq.totalResponse freq =
      ((bandIdx.filter (fun b => (eq.bands b).enabled)).map
        (fun b => (eq.filters b).getFrequencyResponse freq)).prod := by
    unfold MultiBandEQ.totalResponse
    rw [foldl_if_mul, one_mul]
  have habs : Complex.abs (eq.totalResponse freq) =
      ((bandIdx.filter (fun b => (eq.bands b).enabled)).map
        (fun b => Complex.abs ((eq.filters b).getFrequencyResponse freq))).prod := by
    rw [hprod, abs_list_prod, List.map_map]
    rfl
  refine ⟨rfl, hprod, habs, ?_, ?_⟩
  · intro hall
    have hnil : bandIdx.filter (fun b => (eq.bands b).enabled) = [] := by
      rw [List.filter_eq_nil]
      intro b _
      simp [hall b]
    rw [habs, hnil]
    rfl
  · intro hj
    have hguard : (0 : Int) ≤ (j.val : Int) ∧ ((j.val : Int) < NumBands) := by
      constructor
      · exact Int.natCast_nonneg _
      · exact_mod_cast j.isLt
    have hJ : (⟨((j.val : Int)).toNat, by omega⟩ : Fin NumBands) = j := by
      apply Fin.ext
      simp
    have hset : eq.setBandEnabled (j.val : Int) false =
        { eq with
            bands := Function.update eq.bands j
              { eq.bands j with enabled := false } } := by
      unfold MultiBandEQ.setBandEnabled
      rw [dif_pos hguard]
      simp only [hJ]
    have habs2 : Complex.abs ((eq.setBandEnabled (j.val : Int) false).totalResponse freq) =
        ((bandIdx.filter (fun b =>
            (Function.update eq.bands j { eq.bands j with enabled := false} b).enabled)).map
          (fun b => Complex.abs ((eq.filters b).getFrequencyResponse freq))).prod := by
      rw [hset]
      unfold MultiBandEQ.totalResponse
      rw [foldl_if_mul, one_mul, abs_list_prod, List.map_map]
      rfl
    have hpfun : ∀ b, ((Function.update eq.bands j
        { eq.bands j with enabled := false } : Fin NumBands → Band) b).enabled =
        (if b = j then false else (eq.bands b).enabled) := by
      intro b
      rw [Function.update_apply]
      split <;> rfl
    have hfilterfix : bandIdx.filter (fun b =>
        (Function.update eq.bands j { eq.bands j with enabled := false} b).enabled) =
        bandIdx.filter (fun b => if b = j then false else (eq.bands b).enabled) := by
      apply List.filter_congr
      intro b _
      rw [hpfun b]
    rw [habs, habs2, hfilterfix]
    have hjmem : j ∈ bandIdx := by fin_cases j <;> decide
    have hnodup : bandIdx.Nodup := by decide
    exact filter_map_prod_update bandIdx _ _ j hjmem hnodup hj

/-- Witness for C3's disabling clause at band 0 of the default equalizer
and query frequency 1000 Hz. -/
theorem eq_frequencyResponse_cascade_witness :
    (MultiBandEQ.construct.bands 0).enabled = true ∧
    Complex.abs (MultiBandEQ.construct.totalResponse 1000) =
      Complex.abs ((MultiBandEQ.construct.setBandEnabled
          (((0 : Fin NumBands)).val : Int) false).totalResponse 1000) *
        Complex.abs ((MultiBandEQ.construct.filters 0).getFrequencyResponse 1000) := by
  have h := (eq_frequencyResponse_cascade MultiBandEQ.construct [] 1000 0).2.2.2.2
  exact ⟨rfl, h rfl⟩

/-! ### Claim C6 -/

/-- C6 amended: `prepare` (re)establishes
`binFrequencies[i] = i * sampleRate / fftSize` for every `i < fftSize / 2`
(and stores the new sample rate), but `setFFTSize` leaves `binFrequencies`
completely untouched, so after a size change the invariant only holds
again once `prepare` is called. -/
theorem binFrequencies_prepare_invariant (a : SpectrumAnalyzer) (sr : ℚ)
    (hannF : Nat → Nat → ℚ) (o : Nat) :
    (a.prepare sr).binFrequencies.length = a.fftSize / 2 ∧
    (a.prepare sr).fftSize = a.fftSize ∧
    (a.prepare sr).sampleRate = sr ∧
    (∀ i, i < a.fftSize / 2 →
      (a.prepare sr).binFrequencies.getD i 0 =
        (i : ℚ) * sr / (a.fftSize : ℚ)) ∧
    (SpectrumAnalyzer.setFFTSize hannF a o).binFrequencies =
      a.binFrequencies := by
  refine ⟨?_, rfl, rfl, ?_, rfl⟩
  · show ((List.range (a.fftSize / 2)).map
        (fun (i : Nat) => (i : ℚ) * sr / (a.fftSize : ℚ))).length = a.fftSize / 2
    rw [List.length_map, List.length_range]
  · intro i hi
    show ((List.range (a.fftSize / 2)).map
        (fun (i : Nat) => (i : ℚ) * sr / (a.fftSize : ℚ))).getD i 0 = _
    rw [List.getD_eq_getElem _ _
      (by rw [List.length_map, List.length_range]; exact hi)]
    simp only [List.getElem_map, List.getElem_range]

/-- Witness for the amended C6: an order-3 analyzer (fftSize 8) prepared
at 44100 Hz has `binFrequencies[1] = 1 * 44100 / 8`. -/
theorem binFrequencies_prepare_invariant_witness :
    (1 < (SpectrumAnalyzer.make (fun _ _ => 0) 3).fftSize / 2) ∧
    ((SpectrumAnalyzer.make (fun _ _ => 0) 3).prepare 44100).binFrequencies.getD
        1 0 =
      (1 : ℚ) * 44100 / ((SpectrumAnalyzer.make (fun _ _ => 0) 3).fftSize : ℚ) := by
  have h := binFrequencies_prepare_invariant
    (SpectrumAnalyzer.make (fun _ _ => 0) 3) 44100 (fun _ _ => 0) 2
  exact ⟨by decide, h.2.2.2.1 1 (by decide)⟩

/-- Counterexample to C6 as stated: after `prepare(44100)` on an order-3
analyzer (fftSize 8) followed by `setFFTSize(2)` (fftSize 4), the
invariant `binFrequencies[i] = i * sampleRate / fftSize` is broken at
`i = 1` (the stored value is still `44100 / 8`, not `44100 / 4`):
`setFFTSize` does not recompute `binFrequencies`. -/
theorem binFrequencies_stale_after_setFFTSize_cex :
    ¬ ((SpectrumAnalyzer.setFFTSize (fun _ _ => 0)
          ((SpectrumAnalyzer.make (fun _ _ => 0) 3).prepare 44100)
          2).binFrequencies.getD 1 0 =
        (1 : ℚ) * (SpectrumAnalyzer.setFFTSize (fun _ _ => 0)
          ((SpectrumAnalyzer.make (fun _ _ => 0) 3).prepare 44100)
          2).sampleRate /
        ((SpectrumAnalyzer.setFFTSize (fun _ _ => 0)
          ((SpectrumAnalyzer.make (fun _ _ => 0) 3).prepare 44100)
          2).fftSize : ℚ)) := by
  intro h
  rw [show (SpectrumAnalyzer.setFFTSize (fun _ _ => 0)
        ((SpectrumAnalyzer.make (fun _ _ => 0) 3).prepare 44100)
        2).binFrequencies =
      (List.range 4).map (fun (i : Nat) => (i : ℚ) * 44100 / ((8 : Nat) : ℚ))
      from rfl] at h
  rw [show ((List.range 4).map
        (fun (i : Nat) => (i : ℚ) * 44100 / ((8 : Nat) : ℚ))).getD 1 0 =
      ((1 : Nat) : ℚ) * 44100 / ((8 : Nat) : ℚ) from rfl] at h
  rw [show (SpectrumAnalyzer.setFFTSize (fun _ _ => 0)
        ((SpectrumAnalyzer.make (fun _ _ => 0) 3).prepare 44100)
        2).sampleRate = (44100 : ℚ) from rfl] at h
  rw [show ((SpectrumAnalyzer.setFFTSize (fun _ _ => 0)
        ((SpectrumAnalyzer.make (fun _ _ => 0) 3).prepare 44100)
        2).fftSize : ℚ) = ((4 : Nat) : ℚ) from rfl] at h
  norm_num at h

/-! ### Claim C5 -/

/-- Membership in the candidate loop up to `k` iterations: exactly the
bins that pass the local-max test and are not within 100 Hz of a peak
accepted earlier in the scan. -/
lemma peakCandidates_mem_aux (a : SpectrumAnalyzer) (k : Nat) (p : ℚ × ℚ) :
    p ∈ (List.range' 2 k).foldl a.peakStep [] ↔
      ∃ i, 2 ≤ i ∧ i < 2 + k ∧ a.peakCond i ∧
        ¬ a.tooClose (a.peakAccUpTo i) i ∧
        p = (a.binFrequencies.getD i 0, a.smoothedBins.getD i 0) := by
  induction k with
  | zero =>
    simp only [List.range'_zero, List.foldl_nil, List.not_mem_nil, false_iff]
    rintro ⟨i, h1, h2, _⟩
    omega
  | succ k ih =>
    have hconcat : List.range' 2 (k + 1) = List.range' 2 k ++ [2 + k] := by
      have := @List.range'_concat 1 2 k
      simpa using this
    have hacc : a.peakAccUpTo (2 + k) =
        (List.range' 2 k).foldl a.peakStep [] := by
      unfold SpectrumAnalyzer.peakAccUpTo
      rw [Nat.add_sub_cancel_left]
    rw [hconcat, List.foldl_append, List.foldl_cons, List.foldl_nil]
    rw [show a.peakStep ((List.range' 2 k).foldl a.peakStep []) (2 + k) =
        (if a.peakCond (2 + k) ∧
            ¬ a.tooClose ((List.range' 2 k).foldl a.peakStep []) (2 + k) then
          ((List.range' 2 k).foldl a.peakStep []) ++
            [(a.binFrequencies.getD (2 + k) 0, a.smoothedBins.getD (2 + k) 0)]
        else (List.range' 2 k).foldl a.peakStep []) from rfl]
    by_cases hc : a.peakCond (2 + k) ∧
        ¬ a.tooClose ((List.range' 2 k).foldl a.peakStep []) (2 + k)
    · rw [if_pos hc]
      simp only [List.mem_append, List.mem_singleton]
      constructor
      · rintro (hin | hp)
        · obtain ⟨i, h1, h2, h3, h4, h5⟩ := ih.mp hin
          exact ⟨i, h1, by omega, h3, h4, h5⟩
        · refine ⟨2 + k, by omega, by omega, hc.1, ?_, hp⟩
          rw [hacc]
          exact hc.2
      · rintro ⟨i, h1, h2, h3, h4, h5⟩
        by_cases hik : i < 2 + k
        · exact Or.inl (ih.mpr ⟨i, h1, hik, h3, h4, h5⟩)
        · have hieq : i = 2 + k := by omega
          subst hieq
          exact Or.inr h5
    · rw [if_neg hc]
      constructor
      · intro hin
        obtain ⟨i, h1, h2, h3, h4, h5⟩ := ih.mp hin
        exact ⟨i, h1, by omega, h3, h4, h5⟩
      · rintro ⟨i, h1, h2, h3, h4, h5⟩
        by_cases hik : i < 2 + k
        · exact ih.mpr ⟨i, h1, hik, h3, h4, h5⟩
        · have hieq : i = 2 + k := by omega
          subst hieq
          exfalso
          rw [hacc] at h4
          exact hc ⟨h3, h4⟩

/-- C5: `detectPeaks` replaces the peak list with the sorted, truncated
candidate list: it does not depend on the previous `peaks`, the result is
sorted by descending magnitude with at most 10 entries, and the candidate
list contains exactly the bins `i` with `2 ≤ i < size - 2` that strictly
exceed their four nearest neighbours, exceed `-40 dB`, lie within the
frequency limits (`[20, 20000]` Hz on a default-constructed analyzer),
and are not within 100 Hz of a previously accepted peak (greedy ascending
scan, first-found wins). -/
theorem detectPeaks_spec (a : SpectrumAnalyzer) :
    (a.detectPeaksRun.peaks =
      (List.insertionSort magDescOrd a.peakCandidates).take 10) ∧
    (∀ q : List (ℚ × ℚ),
      (SpectrumAnalyzer.detectPeaksRun { a with peaks := q }).peaks =
        a.detectPeaksRun.peaks) ∧
    List.Sorted magDescOrd a.detectPeaksRun.peaks ∧
    a.detectPeaksRun.peaks.length ≤ 10 ∧
    (∀ p : ℚ × ℚ, p ∈ a.peakCandidates ↔
      ∃ i, 2 ≤ i ∧ i + 2 < a.smoothedBins.length ∧ a.peakCond i ∧
        ¬ a.tooClose (a.peakAccUpTo i) i ∧
        p = (a.binFrequencies.getD i 0, a.smoothedBins.getD i 0)) ∧
    (∀ (hannF : Nat → Nat → ℚ) (o : Nat),
      (SpectrumAnalyzer.make hannF o).minFrequency = 20 ∧
      (SpectrumAnalyzer.make hannF o).maxFrequency = 20000) := by
  refine ⟨rfl, fun q => rfl, ?_, ?_, ?_, fun hannF o => ⟨rfl, rfl⟩⟩
  · have hs := List.sorted_insertionSort magDescOrd a.peakCandidates
    exact List.Pairwise.sublist (List.take_sublist 10 _) hs
  · show ((List.insertionSort magDescOrd a.peakCandidates).take 10).length ≤ 10
    rw [List.length_take]
    exact min_le_left _ _
  · intro p
    unfold SpectrumAnalyzer.peakCandidates
    rw [peakCandidates_mem_aux a (a.smoothedBins.length - 4) p]
    constructor
    · rintro ⟨i, h1, h2, h3, h4, h5⟩
      exact ⟨i, h1, by omega, h3, h4, h5⟩
    · rintro ⟨i, h1, h2, h3, h4, h5⟩
      exact ⟨i, h1, by omega, h3, h4, h5⟩

/-! ### Claim C9 -/

/-- The smoothing loop never changes the buffer length. -/
lemma smoothStep_foldl_length (s : ℚ) (db : Nat → ℚ) (idxs : List Nat)
    (l : List ℚ) : (idxs.foldl (smoothStep s db) l).length = l.length := by
  induction idxs generalizing l with
  | nil => rfl
  | cons x xs ih =>
    rw [List.foldl_cons, ih]
    exact List.length_set l x _

/-- The peak-hold loop never changes the buffer length when every index is
already in bounds (the defensive resize branch is then dead). -/
lemma peakHoldStep_foldl_length (db : Nat → ℚ) (idxs : List Nat)
    (l : List ℚ) (h : ∀ i ∈ idxs, i < l.length) :
    (idxs.foldl (peakHoldStep db) l).length = l.length := by
  induction idxs generalizing l with
  | nil => rfl
  | cons x xs ih =>
    have hx : x < l.length := h x (List.mem_cons_self _ _)
    have hstep : (peakHoldStep db l x).length = l.length := by
      unfold peakHoldStep
      rw [if_neg (by omega)]
      exact List.length_set l x _
    rw [List.foldl_cons, ih]
    · exact hstep
    · intro i hi
      rw [hstep]
      exact h i (List.mem_cons_of_mem _ hi)

/-- `performFFT` keeps every buffer at its prepared size. -/
lemma performFFT_prepared (fftMag : List ℚ → List ℚ) (toDb : ℚ → ℚ)
    (hf : ∀ l, (fftMag l).length = l.length) (a : SpectrumAnalyzer)
    (ha : a.Prepared) :
    (SpectrumAnalyzer.performFFT fftMag toDb a).Prepared := by
  obtain ⟨⟨hsb, hib, hw, hfb, hpos⟩, hbf, hph, hidx⟩ := ha
  unfold SpectrumAnalyzer.performFFT SpectrumAnalyzer.detectPeaksRun
  refine ⟨⟨?_, hib, hw, ?_, hpos⟩, hbf, ?_, hidx⟩
  · show ((List.range (a.fftSize / 2)).foldl _ a.smoothedBins).length = _
    rw [smoothStep_foldl_length]
    exact hsb
  · show (fftMag _).length = 2 * a.fftSize
    rw [hf, List.length_append, List.length_map, List.length_range,
      List.length_replicate]
    omega
  · show (if a.peakHoldEnabled then _ else a.peakHoldBins).length = _
    by_cases hpe : a.peakHoldEnabled
    · rw [if_pos hpe, peakHoldStep_foldl_length]
      · exact hph
      · intro i hi
        rw [hph]
        exact List.mem_range.mp hi
    · rw [if_neg hpe]
      exact hph

/-- One streamed sample keeps the analyzer prepared. -/
lemma processOneSample_prepared (fftMag : List ℚ → List ℚ) (toDb : ℚ → ℚ)
    (hf : ∀ l, (fftMag l).length = l.length) (a : SpectrumAnalyzer) (x : ℚ)
    (ha : a.Prepared) :
    (SpectrumAnalyzer.processOneSample fftMag toDb a x).Prepared := by
  obtain ⟨⟨hsb, hib, hw, hfb, hpos⟩, hbf, hph, hidx⟩ := ha
  have hP : (SpectrumAnalyzer.Prepared
      { a with
          inputBuffer := a.inputBuffer.set a.inputBufferIndex x
          inputBufferIndex := (a.inputBufferIndex + 1) % a.fftSize }) := by
    refine ⟨⟨hsb, ?_, hw, hfb, hpos⟩, hbf, hph, Nat.mod_lt _ hpos⟩
    rw [List.length_set]
    exact hib
  unfold SpectrumAnalyzer.processOneSample
  dsimp only
  split
  · exact performFFT_prepared fftMag toDb hf _ hP
  · exact hP

/-- A whole audio block keeps the analyzer prepared. -/
lemma processAudioBlock_prepared (fftMag : List ℚ → List ℚ) (toDb : ℚ → ℚ)
    (hf : ∀ l, (fftMag l).length = l.length) (a : SpectrumAnalyzer)
    (samples : List ℚ) (ha : a.Prepared) :
    (SpectrumAnalyzer.processAudioBlock fftMag toDb a samples).Prepared := by
  unfold SpectrumAnalyzer.processAudioBlock
  induction samples generalizing a with
  | nil => exact ha
  | cons x xs ih =>
    exact ih _ (processOneSample_prepared fftMag toDb hf a x ha)

/-- `std::vector::resize` always yields the requested length. -/
lemma resizeTo_length (l : List ℚ) (n : Nat) : (resizeTo l n).length = n := by
  unfold resizeTo
  rw [List.length_append, List.length_take, List.length_replicate]
  omega

/-- C9: after `prepare` (run after construction or after the latest
`setFFTSize`), every buffer access of `processAudioBlock`, `performFFT`
and `detectPeaks` is in bounds: the constructor and `setFFTSize` size all
working buffers but leave `binFrequencies` alone (empty after
construction, stale contents after `setFFTSize`); `prepare` additionally
sizes `binFrequencies` and the peak-hold track to `fftSize / 2`; a
prepared analyzer satisfies every index bound those routines use
(including `binFrequencies[i]` for `2 ≤ i < fftSize/2 - 2` inside
`detectPeaks`); and processing any block keeps the analyzer prepared. -/
theorem analyzer_access_safety :
    (∀ (hannF : Nat → Nat → ℚ) (o : Nat),
      (SpectrumAnalyzer.make hannF o).BuffersSized ∧
      (SpectrumAnalyzer.make hannF o).binFrequencies = []) ∧
    (∀ (hannF : Nat → Nat → ℚ) (a : SpectrumAnalyzer) (o : Nat),
      (SpectrumAnalyzer.setFFTSize hannF a o).BuffersSized ∧
      (SpectrumAnalyzer.setFFTSize hannF a o).binFrequencies =
        a.binFrequencies) ∧
    (∀ (a : SpectrumAnalyzer) (sr : ℚ), a.BuffersSized →
      (a.prepare sr).Prepared) ∧
    (∀ (a : SpectrumAnalyzer), a.Prepared → ∀ i, 2 ≤ i →
      i + 2 < a.smoothedBins.length →
      i - 1 < a.smoothedBins.length ∧ i + 1 < a.smoothedBins.length ∧
      i - 2 < a.smoothedBins.length ∧ i < a.binFrequencies.length) ∧
    (∀ (a : SpectrumAnalyzer), a.Prepared →
      a.inputBufferIndex < a.inputBuffer.length ∧
      (∀ i, i < a.fftSize → i < a.window.length ∧
        (a.inputBufferIndex + i) % a.fftSize < a.inputBuffer.length) ∧
      (∀ i, i < a.fftSize / 2 → i < a.smoothedBins.length ∧
        i < a.peakHoldBins.length)) ∧
    (∀ (fftMag : List ℚ → List ℚ) (toDb : ℚ → ℚ),
      (∀ l, (fftMag l).length = l.length) →
      ∀ (a : SpectrumAnalyzer) (samples : List ℚ), a.Prepared →
        (SpectrumAnalyzer.processAudioBlock fftMag toDb a samples).Prepared) := by
  refine ⟨?_, ?_, ?_, ?_, ?_, ?_⟩
  · intro hannF o
    refine ⟨⟨?_, ?_, ?_, ?_, ?_⟩, rfl⟩
    · exact List.length_replicate _ _
    · exact List.length_replicate _ _
    · show ((List.range (2 ^ o)).map _).length = 2 ^ o
      rw [List.length_map, List.length_range]
    · show (List.replicate (2 ^ o * 2) (0:ℚ)).length = 2 * 2 ^ o
      rw [List.length_replicate, Nat.mul_comm]
    · exact pow_pos (by norm_num) o
  · intro hannF a o
    refine ⟨⟨?_, ?_, ?_, ?_, ?_⟩, rfl⟩
    · show (List.replicate (resizeTo a.smoothedBins (2 ^ o / 2)).length
        a.minMagnitude).length = 2 ^ o / 2
      rw [List.length_replicate, resizeTo_length]
    · show (List.replicate (resizeTo a.inputBuffer (2 ^ o)).length
        (0:ℚ)).length = 2 ^ o
      rw [List.length_replicate, resizeTo_length]
    · show ((List.range (2 ^ o)).map _).length = 2 ^ o
      rw [List.length_map, List.length_range]
    · show (resizeTo a.fftBuffer (2 ^ o * 2)).length = 2 * 2 ^ o
      rw [resizeTo_length, Nat.mul_comm]
    · exact pow_pos (by norm_num) o
  · rintro a sr ⟨hsb, hib, hw, hfb, hpos⟩
    refine ⟨⟨?_, ?_, hw, hfb, hpos⟩, ?_, ?_, hpos⟩
    · show (List.replicate a.smoothedBins.length a.minMagnitude).length =
        a.fftSize / 2
      rw [List.length_replicate]
      exact hsb
    · show (List.replicate a.inputBuffer.length (0:ℚ)).length = a.fftSize
      rw [List.length_replicate]
      exact hib
    · show ((List.range (a.fftSize / 2)).map _).length = a.fftSize / 2
      rw [List.length_map, List.length_range]
    · exact List.length_replicate _ _
  · rintro a ⟨⟨hsb, hib, hw, hfb, hpos⟩, hbf, hph, hidx⟩ i h2 hlt
    refine ⟨by omega, by omega, by omega, ?_⟩
    rw [hbf]
    rw [hsb] at hlt
    omega
  · rintro a ⟨⟨hsb, hib, hw, hfb, hpos⟩, hbf, hph, hidx⟩
    refine ⟨?_, ?_, ?_⟩
    · rw [hib]
      exact hidx
    · intro i hi
      refine ⟨?_, ?_⟩
      · rw [hw]
        exact hi
      · rw [hib]
        exact Nat.mod_lt _ hpos
    · intro i hi
      refine ⟨?_, ?_⟩
      · rw [hsb]
        exact hi
      · rw [hph]
        exact hi
  · exact fun fftMag toDb hf a samples ha =>
      processAudioBlock_prepared fftMag toDb hf a samples ha

/-- Witness for C9: an order-4 analyzer (fftSize 16) prepared at 44100 Hz
is fully in bounds, bin 2 of `detectPeaks` reads inside `binFrequencies`,
and streaming three samples through it keeps it prepared. -/
theorem analyzer_access_safety_witness :
    ((SpectrumAnalyzer.make (fun _ _ => 0) 4).prepare 44100).Prepared ∧
    (2 + 2 <
      ((SpectrumAnalyzer.make (fun _ _ => 0) 4).prepare
        44100).smoothedBins.length) ∧
    (2 <
      ((SpectrumAnalyzer.make (fun _ _ => 0) 4).prepare
        44100).binFrequencies.length) ∧
    (SpectrumAnalyzer.processAudioBlock (fun l => l) (fun x => x)
      ((SpectrumAnalyzer.make (fun _ _ => 0) 4).prepare 44100)
      [1, 2, 3]).Prepared := by
  have hprep := analyzer_access_safety.2.2.1
    (SpectrumAnalyzer.make (fun _ _ => 0) 4) 44100
    (analyzer_access_safety.1 (fun _ _ => 0) 4).1
  refine ⟨hprep, by decide, ?_, ?_⟩
  · exact (analyzer_access_safety.2.2.2.1 _ hprep 2 (le_refl 2)
      (by decide)).2.2.2
  · exact analyzer_access_safety.2.2.2.2.2 (fun l => l) (fun x => x)
      (fun l => rfl) _ [1, 2, 3] hprep
